import Mathlib

/-!
Verification development for the json_to_csv repository.

The definitions below are a shallow embedding of the two core source files:

* `src/Scripts/JSON_to_csv/convert_json_to_csv.py` — tolerant extraction of
  JSON objects from text (`split_multiple_jsons`), batch-wide key counting
  (`count_keys_across_all`) and flattening (`flatten_json`).
* `src/Scripts/JSON_to_csv/format_csv.py` — the wide-to-long reshaper
  (`transform_flat_sheet_to_long`) and its caller (`process_single_file`).

Python strings are modelled as Lean `String`, Python dicts as insertion-ordered
association lists with overwrite-in-place semantics, `defaultdict(int)` and
`Counter` as total maps `String → Nat`.
-/

namespace JsonToCsv

/-! ### Python string primitives -/

/-- Whitespace characters removed by Python `str.strip()`. -/
def isPyWs (c : Char) : Bool :=
  c = ' ' || c = '\t' || c = '\n' || c = '\r' || c = '\x0b' || c = '\x0c'

/-- Python `str.strip()` on a character list. -/
def pyStripL (l : List Char) : List Char :=
  ((l.dropWhile isPyWs).reverse.dropWhile isPyWs).reverse

/-- Python `str.strip()`. -/
def pyStrip (s : String) : String := String.mk (pyStripL s.data)

/-- Boolean test that the character list `l` begins with the literal `p`. -/
def startsL : List Char → List Char → Bool
  | [], _ => true
  | _ :: _, [] => false
  | p :: ps, x :: xs => p = x && startsL ps xs

/-- Python `s.startswith(pre)`. -/
def pyStarts (s pre : String) : Bool := startsL pre.data s.data

/-- Drop the literal `p` from the front of `l`, or fail. -/
def dropLit : List Char → List Char → Option (List Char)
  | [], l => some l
  | _ :: _, [] => none
  | p :: ps, x :: xs => if p = x then dropLit ps xs else none

/-- Split `l` at the first occurrence of `c`: the parts before and after it. -/
def splitFirstCh (c : Char) : List Char → Option (List Char × List Char)
  | [] => none
  | x :: xs =>
    if x = c then some ([], xs)
    else (splitFirstCh c xs).map (fun p => (x :: p.1, p.2))

/-- Split `l` at the last occurrence of `c`: the parts before and after it. -/
def splitLastCh (c : Char) (l : List Char) : Option (List Char × List Char) :=
  (splitFirstCh c l.reverse).map (fun p => (p.2.reverse, p.1.reverse))

/-- Python `int()` applied to a string of decimal digits. -/
def natOfDigits (l : List Char) : Nat :=
  l.foldl (fun acc c => acc * 10 + (c.toNat - '0'.toNat)) 0

/-- Python `"sep".join(parts)`. -/
def pyJoin (sep : String) : List String → String
  | [] => ""
  | [x] => x
  | x :: y :: rest => x ++ sep ++ pyJoin sep (y :: rest)

/-! ### Association lists with Python dict semantics

A Python dict keeps insertion order; assigning to an existing key overwrites
the value in place, assigning to a fresh key appends it at the end. -/

/-- Python `d[k] = v` on an insertion-ordered association list. -/
def dictSet (m : List (String × β)) (k : String) (v : β) : List (String × β) :=
  match m with
  | [] => [(k, v)]
  | (k', v') :: rest =>
    if k' = k then (k', v) :: rest else (k', v') :: dictSet rest k v

/-- Python `d.get(k, dflt)`. -/
def dictGetD (m : List (String × β)) (k : String) (dflt : β) : β :=
  match m with
  | [] => dflt
  | (k', v') :: rest => if k' = k then v' else dictGetD rest k dflt

/-- Python `d.setdefault(k, dflt)` followed by a mutation `f` of the entry. -/
def dictUpd (m : List (String × β)) (k : String) (dflt : β) (f : β → β) :
    List (String × β) :=
  match m with
  | [] => [(k, f dflt)]
  | (k', v') :: rest =>
    if k' = k then (k', f v') :: rest else (k', v') :: dictUpd rest k dflt f

/-- Python `k in d` (membership of a key). -/
def dictHas (m : List (String × β)) (k : String) : Bool :=
  match m with
  | [] => false
  | (k', _) :: rest => k' = k || dictHas rest k

/-- Increment of a `defaultdict(int)` entry, modelled on total maps. -/
def bump (t : String → Nat) (k : String) : String → Nat :=
  fun s => if s = k then t k + 1 else t s

/-- A stable insertion sort: `lt` is the strict comparison on sort keys.
An element is inserted after every earlier element whose key is not greater,
which is exactly the order Python's stable `sorted` produces. -/
def stableInsert (lt : α → α → Bool) (x : α) : List α → List α
  | [] => [x]
  | y :: ys => if lt x y then x :: y :: ys else y :: stableInsert lt x ys

/-- Stable sort by the strict comparison `lt` (model of Python `sorted`). -/
def stableSort (lt : α → α → Bool) : List α → List α
  | [] => []
  | x :: xs => stableInsert lt x (stableSort lt xs)

/-! ### format_csv.py — column classification

`SECTION_RE = ^(section)_(.+)_(\d+)$` and
`SUB_SECTION_RE = ^(sub_section)_(.+)_(\d+\.\d+)$`.  Because neither `\d+` nor
`\d+\.\d+` can contain an underscore, the greedy `(.+)` always extends to the
last underscore of the name, so matching reduces to: strip the literal head,
split at the last underscore and validate the numeric tail. -/

/-- Match of `SECTION_RE` on a character list: `(field, digits)`. -/
def sectionMatchL (l : List Char) : Option (List Char × List Char) :=
  match dropLit ("section_".data) l with
  | none => none
  | some rest =>
    match splitLastCh '_' rest with
    | none => none
    | some (f, num) =>
      if f ≠ [] ∧ num ≠ [] ∧ num.all Char.isDigit then some (f, num) else none

/-- Match of `SECTION_RE` on a column name: `(field, N)` with `N` the digits. -/
def sectionMatch (s : String) : Option (String × String) :=
  (sectionMatchL s.data).map (fun p => (String.mk p.1, String.mk p.2))

/-- Validate the `\d+\.\d+` tail of `SUB_SECTION_RE`. -/
def decimalTail (num : List Char) : Bool :=
  match splitFirstCh '.' num with
  | none => false
  | some (a, b) => a ≠ [] && a.all Char.isDigit && b ≠ [] && b.all Char.isDigit

/-- Match of `SUB_SECTION_RE` on a character list: `(field, digits.digits)`. -/
def subMatchL (l : List Char) : Option (List Char × List Char) :=
  match dropLit ("sub_section_".data) l with
  | none => none
  | some rest =>
    match splitLastCh '_' rest with
    | none => none
    | some (f, num) =>
      if f ≠ [] ∧ decimalTail num then some (f, num) else none

/-- Match of `SUB_SECTION_RE` on a column name: `(field, "N.M")`. -/
def subMatch (s : String) : Option (String × String) :=
  (subMatchL s.data).map (fun p => (String.mk p.1, String.mk p.2))

/-- Python `snum.split(".")[0]` for a matched sub-section number `"N.M"`. -/
def majorOf (snum : String) : String :=
  match splitFirstCh '.' snum.data with
  | some (a, _) => String.mk a
  | none => snum

/-- Python `int(snum.split(".")[0])` for a matched `"N.M"`. -/
def subKeyMajor (snum : String) : Nat :=
  match splitFirstCh '.' snum.data with
  | some (a, _) => natOfDigits a
  | none => 0

/-- Python `int(snum.split(".")[1])` for a matched `"N.M"`. -/
def subKeyMinor (snum : String) : Nat :=
  match splitFirstCh '.' snum.data with
  | some (_, b) => natOfDigits b
  | none => 0

/-! ### format_csv.py — the long-row data model -/

/-- A cell of the output table.  `vstr` carries an input cell verbatim,
`vint` is `int(sec_num)`, `vfloat` keeps the matched `"N.M"` string that
Python passes to `float`, `vnone` is Python `None` (a missing `.get`),
`vna` is `pd.NA`. -/
inductive Val where
  | vstr (s : String) : Val
  | vint (n : Nat) : Val
  | vfloat (snum : String) : Val
  | vnone : Val
  | vna : Val
deriving DecidableEq, Repr

/-- One output record of `transform_flat_sheet_to_long`; its fields are the
`OUT_COLUMNS` of format_csv.py. -/
structure LongRow where
  report_change : Val
  section_number : Val
  section_title : Val
  section_summary : Val
  section_makeup : Val
  section_change : Val
  section_effect : Val
  section_related_article_title : Val
  section_related_article_date : Val
  section_related_article_summary : Val
  section_related_article_relevance : Val
  section_related_article_source : Val
  sub_section_number : Val
  sub_section_title : Val
  sub_section_summary : Val
  sub_section_makeup : Val
  sub_section_change : Val
  sub_section_effect : Val
  sub_section_related_article_title : Val
  sub_section_related_article_date : Val
  sub_section_related_article_summary : Val
  sub_section_related_article_relevance : Val
  sub_section_related_article_source : Val
deriving DecidableEq, Repr

/-- The fixed output schema `OUT_COLUMNS` of format_csv.py. -/
def OUT_COLUMNS : List String :=
  [("report_change"), ("section_number"), ("section_title"), ("section_summary"),
   ("section_makeup"), ("section_change"), ("section_effect"),
   ("section_related_article_title"), ("section_related_article_date"),
   ("section_related_article_summary"), ("section_related_article_relevance"),
   ("section_related_article_source"), ("sub_section_number"),
   ("sub_section_title"), ("sub_section_summary"), ("sub_section_makeup"),
   ("sub_section_change"), ("sub_section_effect"),
   ("sub_section_related_article_title"), ("sub_section_related_article_date"),
   ("sub_section_related_article_summary"),
   ("sub_section_related_article_relevance"),
   ("sub_section_related_article_source")]

/-- The cells of a `LongRow` in `OUT_COLUMNS` order; this is the record the
output `DataFrame(out_rows, columns=OUT_COLUMNS)` serializes. -/
def toCells (r : LongRow) : List (String × Val) :=
  [(("report_change"), r.report_change),
   (("section_number"), r.section_number),
   (("section_title"), r.section_title),
   (("section_summary"), r.section_summary),
   (("section_makeup"), r.section_makeup),
   (("section_change"), r.section_change),
   (("section_effect"), r.section_effect),
   (("section_related_article_title"), r.section_related_article_title),
   (("section_related_article_date"), r.section_related_article_date),
   (("section_related_article_summary"), r.section_related_article_summary),
   (("section_related_article_relevance"), r.section_related_article_relevance),
   (("section_related_article_source"), r.section_related_article_source),
   (("sub_section_number"), r.sub_section_number),
   (("sub_section_title"), r.sub_section_title),
   (("sub_section_summary"), r.sub_section_summary),
   (("sub_section_makeup"), r.sub_section_makeup),
   (("sub_section_change"), r.sub_section_change),
   (("sub_section_effect"), r.sub_section_effect),
   (("sub_section_related_article_title"), r.sub_section_related_article_title),
   (("sub_section_related_article_date"), r.sub_section_related_article_date),
   (("sub_section_related_article_summary"), r.sub_section_related_article_summary),
   (("sub_section_related_article_relevance"), r.sub_section_related_article_relevance),
   (("sub_section_related_article_source"), r.sub_section_related_article_source)]

/-- An input wide row, `df.iloc[0].to_dict()`: column name to cell text. -/
abbrev WideRow := List (String × String)

/-- Render a field lookup `sec_fields.get(field)` as a cell value. -/
def getField (fields : List (String × String)) (field : String) : Val :=
  match fields.lookup field with
  | some s => Val.vstr s
  | none => Val.vnone

/-- Embedding of `make_section_base` from format_csv.py.  Only the single
global column `report_change` is carried; `sec_num` is always a matched digit
string, so the Python `if sec_num is not None` guard never takes its `None`
branch. -/
def make_section_base (report_change : Val) (sec_num : String)
    (sec_fields : List (String × String)) : LongRow :=
  { report_change := report_change
    section_number := Val.vint (natOfDigits sec_num.data)
    section_title := getField sec_fields ("title")
    section_summary := getField sec_fields ("summary")
    section_makeup := getField sec_fields ("makeup")
    section_change := getField sec_fields ("change")
    section_effect := getField sec_fields ("effect")
    section_related_article_title := getField sec_fields ("related_article_title")
    section_related_article_date := getField sec_fields ("related_article_date")
    section_related_article_summary := getField sec_fields ("related_article_summary")
    section_related_article_relevance := getField sec_fields ("related_article_relevance")
    section_related_article_source := getField sec_fields ("related_article_source")
    sub_section_number := Val.vna
    sub_section_title := Val.vna
    sub_section_summary := Val.vna
    sub_section_makeup := Val.vna
    sub_section_change := Val.vna
    sub_section_effect := Val.vna
    sub_section_related_article_title := Val.vna
    sub_section_related_article_date := Val.vna
    sub_section_related_article_summary := Val.vna
    sub_section_related_article_relevance := Val.vna
    sub_section_related_article_source := Val.vna }

/-- The record emitted for one sub-section: the section base updated with the
sub-section fields (the `rec.update({...})` in the sub-section branch). -/
def make_sub_record (base : LongRow) (sub_num : String)
    (sub_fields : List (String × String)) : LongRow :=
  { base with
    sub_section_number := Val.vfloat sub_num
    sub_section_title := getField sub_fields ("title")
    sub_section_summary := getField sub_fields ("summary")
    sub_section_makeup := getField sub_fields ("makeup")
    sub_section_change := getField sub_fields ("change")
    sub_section_effect := getField sub_fields ("effect")
    sub_section_related_article_title := getField sub_fields ("related_article_title")
    sub_section_related_article_date := getField sub_fields ("related_article_date")
    sub_section_related_article_summary := getField sub_fields ("related_article_summary")
    sub_section_related_article_relevance := getField sub_fields ("related_article_relevance")
    sub_section_related_article_source := getField sub_fields ("related_article_source") }

/-- The sections map of `transform_flat_sheet_to_long`:
`sections.setdefault(num, {})[field] = v` over the row items. -/
def gatherSections (row : WideRow) : List (String × List (String × String)) :=
  row.foldl
    (fun m kv =>
      match sectionMatch kv.1 with
      | some (field, num) => dictUpd m num [] (fun d => dictSet d field kv.2)
      | none => m)
    []

/-- The sub-sections map of `transform_flat_sheet_to_long`:
`subsections.setdefault(sec_prefix, {}).setdefault(snum, {})[field] = v`. -/
def gatherSubsections (row : WideRow) :
    List (String × List (String × List (String × String))) :=
  row.foldl
    (fun m kv =>
      match subMatch kv.1 with
      | some (field, snum) =>
        dictUpd m (majorOf snum) []
          (fun d => dictUpd d snum [] (fun d2 => dictSet d2 field kv.2))
      | none => m)
    []

/-- Python `row.get("report_change")` rendered as a cell value. -/
def reportOf (row : WideRow) : Val :=
  match row.lookup ("report_change") with
  | some s => Val.vstr s
  | none => Val.vnone

/-- Embedding of the emission loop of `transform_flat_sheet_to_long` applied
to the first (and only consulted) row. -/
def transformRow (row : WideRow) : List LongRow :=
  let sections := gatherSections row
  let subsections := gatherSubsections row
  let report_change := reportOf row
  (stableSort (fun a b => natOfDigits a.data < natOfDigits b.data)
      (sections.map Prod.fst)).flatMap
    (fun sec_num =>
      let sec_fields := dictGetD sections sec_num []
      let sub_map := dictGetD subsections sec_num []
      if sub_map ≠ [] then
        (stableSort
            (fun a b =>
              subKeyMajor a < subKeyMajor b ||
                (subKeyMajor a = subKeyMajor b && subKeyMinor a < subKeyMinor b))
            (sub_map.map Prod.fst)).map
          (fun sub_num =>
            make_sub_record (make_section_base report_change sec_num sec_fields)
              sub_num (dictGetD sub_map sub_num []))
      else [make_section_base report_change sec_num sec_fields])

/-- Embedding of `transform_flat_sheet_to_long`: an empty frame gives no rows
(the returned frame only carries the headers), otherwise only `df.iloc[0]`
is read. -/
def transform_flat_sheet_to_long (df : List WideRow) : List LongRow :=
  match df with
  | [] => []
  | row :: _ => transformRow row

/-- Embedding of `process_single_file` from format_csv.py: the transformed
table is handed to `write_sheet_to_supabase` unconditionally; `some t` means
a write of table `t` happens.  The function has no skip branch. -/
def process_single_file (df_in : List WideRow) : Option (List LongRow) :=
  some (transform_flat_sheet_to_long df_in)

/-! ### convert_json_to_csv.py — JSON values

A parsed JSON value as produced by `json.loads`.  Numbers are modelled as
integers (the repository's data never exercises fractional or exponent
literals, which the parser model below rejects). -/

inductive Json where
  | null : Json
  | bool (b : Bool) : Json
  | num (n : Int) : Json
  | str (s : String) : Json
  | arr (xs : List Json) : Json
  | obj (kvs : List (String × Json)) : Json

/- Model of Python repr on JSON data, as used by str() on containers
(string escaping inside repr is simplified to plain quoting; the claims
never nest containers inside arrays). -/
mutual

def pyRepr : Json → String
  | .null => ("None")
  | .bool true => ("True")
  | .bool false => ("False")
  | .num n => toString n
  | .str s => String.mk ['\''] ++ s ++ String.mk ['\'']
  | .arr xs => ("[") ++ pyJoin (", ") (pyReprList xs) ++ ("]")
  | .obj kvs => ("\x7b") ++ pyJoin (", ") (pyReprPairs kvs) ++ ("\x7d")

def pyReprList : List Json → List String
  | [] => []
  | j :: rest => pyRepr j :: pyReprList rest

def pyReprPairs : List (String × Json) → List String
  | [] => []
  | (k, v) :: rest =>
    (String.mk ['\''] ++ k ++ String.mk ['\''] ++ (": ") ++ pyRepr v) ::
      pyReprPairs rest

end

/-- Escape real newlines to the literal two-character sequence `\n`
(Python `s.replace("\n", "\\n")`). -/
def escNLL (l : List Char) : List Char :=
  l.flatMap (fun c => if c = '\n' then ['\\', 'n'] else [c])

/-- Escape real newlines in a string. -/
def escNL (s : String) : String := String.mk (escNLL s.data)

/-- Embedding of `clean_value` from flatten_json:
`str(v).replace("\n", "\\n") if isinstance(v, str) else str(v)`. -/
def clean_value : Json → String
  | .str s => escNL s
  | j => pyRepr j

/-- Embedding of `format_key` (and of the identical key normalization in
`count_keys_across_all`): `k.strip().lower().replace(" ", "_").replace("-", "_")`.
Lower-casing is modelled on ASCII. -/
def format_key (k : String) : String :=
  String.mk ((((pyStripL k.data).map Char.toLower).map
      (fun c => if c = ' ' then '_' else c)).map
    (fun c => if c = '-' then '_' else c))

/- Embedding of extract_keys inside count_keys_across_all: every dict
key met anywhere (also inside lists and inside dict values) bumps the
counter of its formatted name. -/
mutual

def extract_keys (counts : String → Nat) : Json → (String → Nat)
  | .obj kvs => extract_keys_pairs counts kvs
  | .arr xs => extract_keys_list counts xs
  | _ => counts

def extract_keys_pairs (counts : String → Nat) :
    List (String × Json) → (String → Nat)
  | [] => counts
  | (k, v) :: rest =>
    extract_keys_pairs (extract_keys (bump counts (format_key k)) v) rest

def extract_keys_list (counts : String → Nat) : List Json → (String → Nat)
  | [] => counts
  | j :: rest => extract_keys_list (extract_keys counts j) rest

end

/-- Embedding of `count_keys_across_all`. -/
def count_keys_across_all (objs : List Json) : String → Nat :=
  objs.foldl extract_keys (fun _ => 0)

/-- Python `global_key_total.get(f_key, 1)`: a key the batch-wide `Counter`
never saw (count 0) defaults to total 1. -/
def getTotal (tot : String → Nat) (k : String) : Nat :=
  if tot k = 0 then 1 else tot k

/-- The mutable state threaded through `flatten_json`'s `recurse`:
`flat_dict`, the shared `global_key_tracker`, the `current_section`,
`sub_counter` and `current_sub_id` counters.  `assigns` is a ghost trace
recording every `flat_dict[col_name] = value` write as the triple
`(f_key, col_name, value)`, used only to state per-occurrence properties. -/
structure FState where
  flat : List (String × String)
  tracker : String → Nat
  curSec : Nat
  subCtr : Nat
  subId : Option String
  assigns : List (String × String × String)

/-- The column name picked by the two identical scalar/list arms of
`flatten_json`: a hierarchical `N.M` suffix for `sub_`-keys under an active
sub-section id, else an occurrence suffix exactly when the batch total
exceeds one. -/
def chooseCol (tot : String → Nat) (subId : Option String) (fk : String)
    (count : Nat) : String :=
  if pyStarts fk ("sub_") && subId.isSome then
    fk ++ ("_") ++ subId.getD ("")
  else if getTotal tot fk > 1 then fk ++ ("_") ++ toString count
  else fk

/- Embedding of recurse inside flatten_json (the parent_key parameter
of the source is never read and is omitted). -/
mutual

def recJson (tot : String → Nat) (st : FState) : Json → FState
  | .obj kvs => recPairs tot st kvs
  | .arr xs => recItems tot st xs
  | _ => st

def recPairs (tot : String → Nat) (st : FState) :
    List (String × Json) → FState
  | [] => st
  | (k, v) :: rest =>
    let fk := format_key k
    if fk = ("section_title") then
      let tr := bump st.tracker fk
      let col :=
        if getTotal tot fk > 1 then fk ++ ("_") ++ toString (tr fk) else fk
      recPairs tot
        { st with
          curSec := st.curSec + 1
          subCtr := 0
          subId := none
          tracker := tr
          flat := dictSet st.flat col (clean_value v)
          assigns := st.assigns ++ [(fk, col, clean_value v)] } rest
    else if fk = ("sub_section_title") then
      let sid := toString st.curSec ++ (".") ++ toString (st.subCtr + 1)
      let col := fk ++ ("_") ++ sid
      recPairs tot
        { st with
          subCtr := st.subCtr + 1
          subId := some sid
          flat := dictSet st.flat col (clean_value v)
          assigns := st.assigns ++ [(fk, col, clean_value v)] } rest
    else
      match v with
      | .obj kvs => recPairs tot (recJson tot st (.obj kvs)) rest
      | .arr xs =>
        let lv := pyJoin ("\\n") (xs.map clean_value)
        let tr := bump st.tracker fk
        let col := chooseCol tot st.subId fk (tr fk)
        recPairs tot
          { st with
            tracker := tr
            flat := dictSet st.flat col lv
            assigns := st.assigns ++ [(fk, col, lv)] } rest
      | sc =>
        let tr := bump st.tracker fk
        let col := chooseCol tot st.subId fk (tr fk)
        recPairs tot
          { st with
            tracker := tr
            flat := dictSet st.flat col (clean_value sc)
            assigns := st.assigns ++ [(fk, col, clean_value sc)] } rest

def recItems (tot : String → Nat) (st : FState) : List Json → FState
  | [] => st
  | j :: rest => recItems tot (recJson tot st j) rest

end

/-- Embedding of `flatten_json`: the fresh per-call state carries the shared
batch-wide tracker; the flattened row is the `flat` field of the result. -/
def flatten_json (tot : String → Nat) (tracker : String → Nat) (obj : Json) :
    FState :=
  recJson tot
    { flat := []
      tracker := tracker
      curSec := 0
      subCtr := 0
      subId := none
      assigns := [] } obj

/-- The result of flattening a batch: the rows, the final shared tracker and
the concatenated ghost traces. -/
structure BatchResult where
  rows : List (List (String × String))
  tracker : String → Nat
  assigns : List (String × String × String)

/-- Embedding of the per-object loop of `process_json_objects` (append
mode): each object is flattened with the shared `key_tracker`, starting from
`defaultdict(int)`. -/
def flatten_batch (tot : String → Nat) (objs : List Json) : BatchResult :=
  objs.foldl
    (fun acc obj =>
      let st := flatten_json tot acc.tracker obj
      { rows := acc.rows ++ [st.flat]
        tracker := st.tracker
        assigns := acc.assigns ++ st.assigns })
    { rows := [], tracker := fun _ => 0, assigns := [] }

/-! ### The escaped-newline split (the recovery operation of §8) -/

/-- Left-to-right non-overlapping split on the two-character delimiter
backslash-n, the model of Python `s.split("\\n")`. -/
def splitEscL : List Char → List (List Char)
  | [] => [[]]
  | c :: rest =>
    if c = '\\' ∧ rest.head? = some 'n' then [] :: splitEscL rest.tail
    else
      match splitEscL rest with
      | [] => [[c]]
      | p :: ps => (c :: p) :: ps
termination_by l => l.length
decreasing_by
  · simp [List.length_tail]; omega
  · simp

/-- Whether the two-character delimiter backslash-n occurs in `l`. -/
def containsEsc : List Char → Bool
  | [] => false
  | c :: rest =>
    if c = '\\' ∧ rest.head? = some 'n' then true else containsEsc rest

/-- Python `s.split("\\n")` on strings. -/
def pySplitEsc (s : String) : List String := (splitEscL s.data).map String.mk

/-- Character-list counterpart of `pyJoin`. -/
def joinL (sep : List Char) : List (List Char) → List Char
  | [] => []
  | [x] => x
  | x :: y :: rest => x ++ sep ++ joinL sep (y :: rest)

/-! ### Specification vocabulary for the suffix policy (claim C3)

The ghost trace of `flatten_json` records one `(f_key, col_name, value)`
triple per `flat_dict` write; the following definitions extract, for one
canonical key, the number of its processed occurrences and the column names
those occurrences received, and state the names the suffix policy of §4.2
predicts for them. -/

/-- Number of trace entries whose canonical key is `k` (processed
occurrences of `k`). -/
def numK (k : String) (d : List (String × String × String)) : Nat :=
  (d.filter (fun a => a.1 = k)).length

/-- The column names the occurrences of `k` received, in order. -/
def traceFor (k : String) (d : List (String × String × String)) : List String :=
  (d.filter (fun a => a.1 = k)).map (fun a => a.2.1)

/-- The names predicted by the suffix policy for `n` occurrences of `k`
starting from tracker value `c`: the bare key when the batch-wide total is
one, else the occurrence-numbered names `k_(c+1), …, k_(c+n)`. -/
def expectedCols (tot : String → Nat) (k : String) (c n : Nat) : List String :=
  if getTotal tot k = 1 then List.replicate n k
  else (List.range' (c + 1) n).map (fun i => k ++ ("_") ++ toString i)

/-- The trace-evolution contract between two tracker/trace pairs: the trace
grows by a delta whose `k`-entries are counted by the tracker and named by
the suffix policy. -/
def TrSpec (tot : String → Nat) (k : String) (t₁ : String → Nat)
    (a₁ : List (String × String × String)) (t₂ : String → Nat)
    (a₂ : List (String × String × String)) : Prop :=
  ∃ d, a₂ = a₁ ++ d ∧ t₂ k = t₁ k + numK k d ∧
    traceFor k d = expectedCols tot k (t₁ k) (numK k d)

/-! ### convert_json_to_csv.py — the block extractor

`split_multiple_jsons` scans the text line by line, accumulating
brace-balanced blocks and loose `"key": value` runs, and parses candidates
with `json.loads`.  The parser below models `json.loads` on the JSON subset
the repository exercises: objects, arrays, strings with the common escapes,
integer numbers, `true`/`false`/`null` (fractional and exponent number
literals and `\u` escapes are rejected). -/

/-- JSON whitespace accepted between tokens. -/
def skipWs : List Char → List Char
  | [] => []
  | c :: rest =>
    if c = ' ' ∨ c = '\t' ∨ c = '\n' ∨ c = '\r' then skipWs rest else c :: rest

/-- Decode one string-escape character. -/
def jsonUnescCh (c : Char) : Option Char :=
  if c = '"' then some '"'
  else if c = '\\' then some '\\'
  else if c = '/' then some '/'
  else if c = 'n' then some '\n'
  else if c = 't' then some '\t'
  else if c = 'r' then some '\r'
  else if c = 'b' then some '\x08'
  else if c = 'f' then some '\x0c'
  else none

/-- Parse the body of a JSON string literal (after the opening quote). -/
def parseStr : List Char → Option (List Char × List Char)
  | [] => none
  | '"' :: rest => some ([], rest)
  | '\\' :: e :: rest =>
    match jsonUnescCh e with
    | none => none
    | some c => (parseStr rest).map (fun p => (c :: p.1, p.2))
  | c :: rest => (parseStr rest).map (fun p => (c :: p.1, p.2))

/-- Parse a JSON integer literal; fractional or exponent tails are
rejected (model restriction). -/
def parseNum (l : List Char) : Option (Json × List Char) :=
  let (neg, l1) := match l with
    | '-' :: r => (true, r)
    | _ => (false, l)
  let digits := l1.takeWhile Char.isDigit
  let rest := l1.dropWhile Char.isDigit
  if digits = [] then none
  else
    match rest with
    | '.' :: _ => none
    | 'e' :: _ => none
    | 'E' :: _ => none
    | _ =>
      let n : Int := Int.ofNat (natOfDigits digits)
      some (Json.num (if neg then -n else n), rest)

mutual

def parseVal (fuel : Nat) (l : List Char) : Option (Json × List Char) :=
  match fuel with
  | 0 => none
  | fuel + 1 =>
    match skipWs l with
    | 'n' :: 'u' :: 'l' :: 'l' :: rest => some (Json.null, rest)
    | 't' :: 'r' :: 'u' :: 'e' :: rest => some (Json.bool true, rest)
    | 'f' :: 'a' :: 'l' :: 's' :: 'e' :: rest => some (Json.bool false, rest)
    | '"' :: rest =>
      (parseStr rest).map (fun p => (Json.str (String.mk p.1), p.2))
    | '[' :: rest =>
      (match skipWs rest with
        | ']' :: r2 => some (Json.arr [], r2)
        | _ => (parseElems fuel rest).map (fun p => (Json.arr p.1, p.2)))
    | '\x7b' :: rest =>
      (match skipWs rest with
        | '\x7d' :: r2 => some (Json.obj [], r2)
        | _ => (parseMembers fuel rest).map (fun p => (Json.obj p.1, p.2)))
    | l2 => parseNum l2

def parseElems (fuel : Nat) (l : List Char) : Option (List Json × List Char) :=
  match fuel with
  | 0 => none
  | fuel + 1 =>
    match parseVal fuel l with
    | none => none
    | some (j, r) =>
      match skipWs r with
      | ',' :: r2 => (parseElems fuel r2).map (fun p => (j :: p.1, p.2))
      | ']' :: r2 => some ([j], r2)
      | _ => none

def parseMembers (fuel : Nat) (l : List Char) :
    Option (List (String × Json) × List Char) :=
  match fuel with
  | 0 => none
  | fuel + 1 =>
    match skipWs l with
    | '"' :: r =>
      match parseStr r with
      | none => none
      | some (key, r2) =>
        match skipWs r2 with
        | ':' :: r3 =>
          match parseVal fuel r3 with
          | none => none
          | some (j, r4) =>
            match skipWs r4 with
            | ',' :: r5 =>
              (parseMembers fuel r5).map
                (fun p => ((String.mk key, j) :: p.1, p.2))
            | '\x7d' :: r5 => some ([(String.mk key, j)], r5)
            | _ => none
        | _ => none
    | _ => none

end

/-- Model of Python `json.loads` (see the module doc above): parse one value
and require only whitespace after it. -/
def json_loads (s : String) : Option Json :=
  match parseVal (s.data.length * 2 + 8) s.data with
  | some (j, rest) => if skipWs rest = [] then some j else none
  | none => none

/-- Python `str.rstrip()` on a character list. -/
def pyRstripL (l : List Char) : List Char :=
  (l.reverse.dropWhile isPyWs).reverse

/-- Whether a parsed value is a dict (`isinstance(parsed, dict)`). -/
def isDict : Json → Bool
  | .obj _ => true
  | _ => false

/-- Embedding of `finalize_json_block`: strip the block, drop one trailing
comma, try `json.loads`, fall back to wrapping in `[...]` and keeping the
dict elements; a block failing both parses is skipped with one recorded
warning. -/
def finalize_json_block (snips : List Json) (warns : Nat) (cur : String) :
    List Json × Nat :=
  if cur = "" then (snips, warns)
  else
    let b0 := pyStrip cur
    let b :=
      if b0.data.getLast? = some ',' then String.mk (pyRstripL b0.data.dropLast)
      else b0
    match json_loads b with
    | some (Json.obj kvs) => (snips ++ [Json.obj kvs], warns)
    | some _ =>
      (match json_loads (("[") ++ b ++ ("]")) with
        | some (Json.arr xs) => (snips ++ xs.filter isDict, warns)
        | some _ => (snips, warns)
        | none => (snips, warns + 1))
    | none =>
      (match json_loads (("[") ++ b ++ ("]")) with
        | some (Json.arr xs) => (snips ++ xs.filter isDict, warns)
        | some _ => (snips, warns)
        | none => (snips, warns + 1))

/-- Embedding of `finalize_loose_block`: wrap the collected
`"key": value` items in synthetic braces and parse them as one object;
failure records one warning. -/
def finalize_loose_block (snips : List Json) (warns : Nat)
    (items : List String) : List Json × Nat :=
  if items = [] then (snips, warns)
  else
    let obj_text := ("\x7b\n") ++ pyJoin (",\n") items ++ ("\n\x7d")
    match json_loads obj_text with
    | some (Json.obj kvs) => (snips ++ [Json.obj kvs], warns)
    | some _ => (snips, warns)
    | none => (snips, warns + 1)

/-- Python `json.dumps` on a string value. -/
def jsonDumpsStr (s : String) : String :=
  String.mk ('"' :: s.data.flatMap
    (fun c =>
      if c = '"' then ['\\', '"']
      else if c = '\\' then ['\\', '\\']
      else if c = '\n' then ['\\', 'n']
      else if c = '\t' then ['\\', 't']
      else if c = '\r' then ['\\', 'r']
      else [c]) ++ ['"'])

/-- The `^-?\d+(\.\d+)?$` number test of the loose-value heuristic. -/
def isNumLit (l : List Char) : Bool :=
  let l1 := match l with
    | '-' :: r => r
    | _ => l
  match splitFirstCh '.' l1 with
  | none => l1 ≠ [] && l1.all Char.isDigit
  | some (a, b) => a ≠ [] && a.all Char.isDigit && b ≠ [] && b.all Char.isDigit

/-- Python `raw_val.strip(chr(34))`: strip quote characters on both ends. -/
def stripQuotes (s : String) : String :=
  String.mk (((s.data.dropWhile (· = '"')).reverse.dropWhile (· = '"')).reverse)

/-- The value normalization of the loose-line branch: keep values that look
like valid JSON, re-quote everything else. -/
def looseValJson (raw : String) : String :=
  match raw.data with
  | '"' :: _ => raw
  | '\x7b' :: _ => raw
  | '[' :: _ => raw
  | _ =>
    if raw = ("true") ∨ raw = ("false") ∨ raw = ("null") ∨ isNumLit raw.data
    then raw
    else jsonDumpsStr (stripQuotes raw)

/-- Match of the loose-line regex
`^\s*"([^"]+)"\s*:\s*(.+?)\s*,?\s*$`: the key and the (stripped) value. -/
def looseKV (line : String) : Option (String × String) :=
  match line.data.dropWhile isPyWs with
  | '"' :: rest =>
    (match splitFirstCh '"' rest with
      | none => none
      | some (key, rest2) =>
        if key = [] then none
        else
          match rest2.dropWhile isPyWs with
          | ':' :: r4 =>
            let r5 := r4.dropWhile isPyWs
            let v1 := pyRstripL r5
            let v2 :=
              if v1.getLast? = some ',' then pyRstripL v1.dropLast else v1
            if v2 = [] then none else some (String.mk key, String.mk v2)
          | _ => none)
  | _ => none

/-- Python `text.splitlines()` modelled on newline separators only. -/
def splitAllCh (c : Char) : List Char → List (List Char)
  | [] => [[]]
  | x :: xs =>
    if x = c then [] :: splitAllCh c xs
    else
      match splitAllCh c xs with
      | [] => [[x]]
      | p :: ps => (x :: p) :: ps

/-- Python `text.splitlines()` (newline-only model). -/
def splitlinesPy (s : String) : List String :=
  if s.data = [] then []
  else
    let parts := splitAllCh '\n' s.data
    let parts := if parts.getLast? = some [] then parts.dropLast else parts
    parts.map String.mk

/-- Python `line.count(chr(123)) - line.count(chr(125))`. -/
def braceDelta (line : String) : Int :=
  (line.data.count '\x7b' : Int) - (line.data.count '\x7d' : Int)

/-- The loop state of `split_multiple_jsons`. -/
structure ExtState where
  snippets : List Json
  warns : Nat
  current_block : String
  brace_balance : Int
  flat_items : List String

/-- One iteration of the line loop of `split_multiple_jsons`. -/
def processLine (st : ExtState) (raw : String) : ExtState :=
  let line := pyStrip raw
  if st.current_block ≠ "" then
    let cb := st.current_block ++ ("\n") ++ line
    let bb := st.brace_balance + braceDelta line
    if bb = 0 then
      let r := finalize_json_block st.snippets st.warns cb
      { st with
        snippets := r.1
        warns := r.2
        current_block := ""
        brace_balance := bb }
    else { st with current_block := cb, brace_balance := bb }
  else if line.data.contains '\x7b' then
    let r0 :=
      if st.flat_items ≠ [] then
        finalize_loose_block st.snippets st.warns st.flat_items
      else (st.snippets, st.warns)
    let bb := braceDelta line
    if bb = 0 then
      let r := finalize_json_block r0.1 r0.2 line
      { snippets := r.1
        warns := r.2
        current_block := ""
        brace_balance := bb
        flat_items := [] }
    else
      { snippets := r0.1
        warns := r0.2
        current_block := line
        brace_balance := bb
        flat_items := [] }
  else if line = "" then
    let r := finalize_loose_block st.snippets st.warns st.flat_items
    { st with snippets := r.1, warns := r.2, flat_items := [] }
  else
    match looseKV line with
    | some (key, rawv) =>
      { st with
        flat_items :=
          st.flat_items ++ [jsonDumpsStr key ++ (": ") ++ looseValJson rawv] }
    | none =>
      let r := finalize_loose_block st.snippets st.warns st.flat_items
      { st with snippets := r.1, warns := r.2, flat_items := [] }

/-- Embedding of `split_multiple_jsons`: the extracted objects and the
number of skipped-block warnings. -/
def split_multiple_jsons (text : String) : List Json × Nat :=
  let st :=
    (splitlinesPy text).foldl processLine
      { snippets := []
        warns := 0
        current_block := ""
        brace_balance := 0
        flat_items := [] }
  let r1 :=
    if st.current_block ≠ "" then
      finalize_json_block st.snippets st.warns st.current_block
    else (st.snippets, st.warns)
  if st.flat_items ≠ [] then finalize_loose_block r1.1 r1.2 st.flat_items
  else r1

/-! ### Helper lemmas on the character-list primitives -/

theorem strExt {a b : String} (h : a.data = b.data) : a = b := by
  cases a; cases b; exact congrArg String.mk h

theorem strMkData (s : String) : String.mk s.data = s := rfl

theorem dropLit_self (p r : List Char) : dropLit p (p ++ r) = some r := by
  induction p with
  | nil => rfl
  | cons c cs ih => simp [dropLit, ih]

theorem splitFirstCh_of_not_mem {c : Char} {x : List Char} (hx : c ∉ x)
    (y : List Char) : splitFirstCh c (x ++ c :: y) = some (x, y) := by
  induction x with
  | nil => simp [splitFirstCh]
  | cons a as ih =>
    have hac : a ≠ c := fun h => hx (h ▸ List.mem_cons_self a as)
    have ih' := ih (fun h => hx (List.mem_cons_of_mem a h))
    simp [splitFirstCh, hac, ih']

theorem splitFirstCh_none {c : Char} {l : List Char} (h : c ∉ l) :
    splitFirstCh c l = none := by
  induction l with
  | nil => rfl
  | cons a as ih =>
    have hac : a ≠ c := fun he => h (he ▸ List.mem_cons_self a as)
    simp [splitFirstCh, hac, ih (fun hm => h (List.mem_cons_of_mem a hm))]

theorem splitLastCh_of_not_mem {c : Char} {tail : List Char} (x : List Char)
    (h : c ∉ tail) : splitLastCh c (x ++ c :: tail) = some (x, tail) := by
  unfold splitLastCh
  have hrev : (x ++ c :: tail).reverse = tail.reverse ++ c :: x.reverse := by
    simp
  rw [hrev, splitFirstCh_of_not_mem (by simpa using h)]
  simp

theorem digit_ne_underscore {c : Char} (h : c.isDigit = true) : c ≠ '_' := by
  intro he; subst he; exact absurd h (by decide)

theorem digit_ne_dot {c : Char} (h : c.isDigit = true) : c ≠ '.' := by
  intro he; subst he; exact absurd h (by decide)

theorem not_mem_of_all_digit {c : Char} {l : List Char}
    (hall : l.all Char.isDigit = true) (hc : c.isDigit = false) : c ∉ l := by
  intro hm
  have := List.all_eq_true.mp hall c hm
  rw [this] at hc
  cases hc

/-! ### Claim theorems for format_csv.py -/

/-- C10.  The reshaper reads only the first input row: tables with equal
first rows transform identically, whatever follows the first row. -/
theorem transform_reads_only_first_row (row : WideRow)
    (rest₁ rest₂ : List WideRow) :
    transform_flat_sheet_to_long (row :: rest₁) =
      transform_flat_sheet_to_long (row :: rest₂) := rfl

/-- C2 counterexample.  A wide row with no recognizable section or
sub-section columns makes the reshaper return zero rows, yet
`process_single_file` still performs a write (of the empty table) instead of
skipping it, contrary to the claim. -/
theorem process_writes_empty_table_cex :
    transform_flat_sheet_to_long [[(("foo"), ("bar"))]] = [] ∧
      process_single_file [[(("foo"), ("bar"))]] = some [] :=
  ⟨rfl, rfl⟩

/-- C2 amended.  Whenever the reshaper returns zero rows, the caller still
writes the output file: an empty table is persisted rather than skipped. -/
theorem process_single_file_writes_unconditionally (df : List WideRow)
    (h : transform_flat_sheet_to_long df = []) :
    process_single_file df = some [] := by
  simp [process_single_file, h]

theorem process_single_file_writes_unconditionally_witness :
    transform_flat_sheet_to_long [[(("foo"), ("bar"))]] = [] ∧
      process_single_file [[(("foo"), ("bar"))]] = some [] :=
  ⟨rfl, process_single_file_writes_unconditionally [[(("foo"), ("bar"))]] rfl⟩

theorem gatherSections_nil_of_no_match {row : WideRow}
    (h : ∀ kv ∈ row, sectionMatch kv.1 = none) : gatherSections row = [] := by
  unfold gatherSections
  have aux : ∀ (l : WideRow) (m : List (String × List (String × String))),
      (∀ kv ∈ l, sectionMatch kv.1 = none) →
      (l.foldl
        (fun m kv =>
          match sectionMatch kv.1 with
          | some (field, num) => dictUpd m num [] (fun d => dictSet d field kv.2)
          | none => m)
        m) = m := by
    intro l
    induction l with
    | nil => intro m _; rfl
    | cons kv rest ih =>
      intro m hl
      have h1 : sectionMatch kv.1 = none := hl kv (List.mem_cons_self kv rest)
      have h2 : ∀ kv' ∈ rest, sectionMatch kv'.1 = none :=
        fun kv' hm => hl kv' (List.mem_cons_of_mem kv hm)
      simp only [List.foldl_cons, h1]
      exact ih m h2
  exact aux row [] h

/-- C4 counterexample.  A wide row holding only the sub-section column
`sub_section_title_1.1` (its section prefix 1 has no `section_*_1` column)
reshapes to zero rows: the orphan sub-section is dropped, no section is
synthesized from the sub-section prefixes. -/
theorem orphan_subsection_dropped_cex :
    subMatch ("sub_section_title_1.1") = some (("title"), ("1.1")) ∧
      transform_flat_sheet_to_long [[(("sub_section_title_1.1"), ("X"))]] = [] :=
  ⟨rfl, rfl⟩

/-- C4 amended.  The section number set comes only from `section_*_N`
columns: a wide row with no column matching the section pattern reshapes to
zero rows, even when sub-section columns are present; orphan sub-sections are
dropped, never synthesized into a section. -/
theorem no_section_columns_no_rows (row : WideRow) (rest : List WideRow)
    (h : ∀ kv ∈ row, sectionMatch kv.1 = none) :
    transform_flat_sheet_to_long (row :: rest) = [] := by
  show transformRow row = []
  unfold transformRow
  rw [gatherSections_nil_of_no_match h]
  rfl

theorem no_section_columns_no_rows_witness :
    (∀ kv ∈ ([(("sub_section_title_1.1"), ("X"))] : WideRow),
        sectionMatch kv.1 = none) ∧
      transform_flat_sheet_to_long [[(("sub_section_title_1.1"), ("X"))]] = [] :=
  ⟨by decide, no_section_columns_no_rows _ [] (by decide)⟩

/-- C1 counterexample.  The column `foo` matches neither pattern, so it is a
global field, yet the single output row of the reshaper has no `foo` column
at all: its value is not repeated on the output rows. -/
theorem global_column_dropped_cex :
    sectionMatch ("foo") = none ∧ subMatch ("foo") = none ∧
      (transform_flat_sheet_to_long
          [[(("foo"), ("bar")), (("report_change"), ("rc")),
            (("section_title_1"), ("T"))]]).map
        (fun r => (toCells r).lookup ("foo")) = [none] :=
  ⟨rfl, rfl, by decide⟩

/-- C1 amended.  Of the global columns only `report_change` is repeated on
every output row; every other global column is dropped, because each output
record carries exactly the fixed `OUT_COLUMNS` schema. -/
theorem only_report_change_carried (row : WideRow) (rest : List WideRow)
    (r : LongRow) (hr : r ∈ transform_flat_sheet_to_long (row :: rest)) :
    r.report_change = reportOf row ∧ (toCells r).map Prod.fst = OUT_COLUMNS := by
  refine ⟨?_, rfl⟩
  have hr' : r ∈ transformRow row := hr
  unfold transformRow at hr'
  rw [List.mem_flatMap] at hr'
  obtain ⟨sec, _, hmem⟩ := hr'
  by_cases hsub :
      dictGetD (gatherSubsections row) sec ([] : List (String × List (String × String))) ≠ []
  · rw [if_pos hsub, List.mem_map] at hmem
    obtain ⟨sub, _, heq⟩ := hmem
    rw [← heq]; rfl
  · rw [if_neg hsub, List.mem_singleton] at hmem
    rw [hmem]; rfl

theorem only_report_change_carried_witness :
    (make_section_base Val.vnone ("1") [(("title"), ("T"))]) ∈
        transform_flat_sheet_to_long [[(("section_title_1"), ("T"))]] ∧
      ((make_section_base Val.vnone ("1")
            [(("title"), ("T"))]).report_change =
          reportOf [(("section_title_1"), ("T"))] ∧
        (toCells (make_section_base Val.vnone ("1")
            [(("title"), ("T"))])).map Prod.fst = OUT_COLUMNS) :=
  ⟨by decide, only_report_change_carried _ [] _ (by decide)⟩

/-- C5 counterexample.  The underscore separator form is not recognized:
`sub_section_title_1_2` matches neither `SUB_SECTION_RE` nor `SECTION_RE`
(so it is treated as a global column), while the claim says it classifies as
field `title` of sub-section 1.2 like `sub_section_title_1.2` does. -/
theorem underscore_separator_cex :
    subMatch ("sub_section_title_1_2") = none ∧
      sectionMatch ("sub_section_title_1_2") = none ∧
      subMatch ("sub_section_title_1.2") = some (("title"), ("1.2")) :=
  ⟨rfl, rfl, rfl⟩

theorem dropLit_section_on_sub (r : List Char) :
    dropLit ['s', 'e', 'c', 't', 'i', 'o', 'n', '_']
      (['s', 'u', 'b', '_', 's', 'e', 'c', 't', 'i', 'o', 'n', '_'] ++ r) =
      none := rfl

/-- C5 amended.  Classification accepts only `.` as the separator between N
and M: every name `sub_section_<field>_<N.M>` (dot form, digits N and M)
classifies as that field of sub-section N.M, while the underscore form
`sub_section_<field>_<N>_<M>` matches neither pattern and is treated as a
global column. -/
theorem sub_pattern_dot_only (f nd md : String) (hf : f.data ≠ [])
    (hnd : nd.data ≠ []) (hnda : nd.data.all Char.isDigit = true)
    (hmd : md.data ≠ []) (hmda : md.data.all Char.isDigit = true) :
    subMatch ("sub_section_" ++ f ++ "_" ++ nd ++ "." ++ md) =
        some (f, nd ++ "." ++ md) ∧
      subMatch ("sub_section_" ++ f ++ "_" ++ nd ++ "_" ++ md) = none ∧
      sectionMatch ("sub_section_" ++ f ++ "_" ++ nd ++ "_" ++ md) = none := by
  have hndU : '_' ∉ nd.data :=
    not_mem_of_all_digit hnda (by decide)
  have hndD : '.' ∉ nd.data :=
    not_mem_of_all_digit hnda (by decide)
  have hmdU : '_' ∉ md.data :=
    not_mem_of_all_digit hmda (by decide)
  have hmdD : '.' ∉ md.data :=
    not_mem_of_all_digit hmda (by decide)
  have hdataDot :
      ("sub_section_" ++ f ++ "_" ++ nd ++ "." ++ md).data =
        ("sub_section_").data ++ (f.data ++ '_' :: (nd.data ++ '.' :: md.data)) := by
    simp [String.data_append]
  have hdataU :
      ("sub_section_" ++ f ++ "_" ++ nd ++ "_" ++ md).data =
        ("sub_section_").data ++
          ((f.data ++ '_' :: nd.data) ++ '_' :: md.data) := by
    simp [String.data_append]
  have htailU : '_' ∉ nd.data ++ '.' :: md.data := by
    intro hm
    rcases List.mem_append.mp hm with h1 | h1
    · exact hndU h1
    · rcases List.mem_cons.mp h1 with h2 | h2
      · cases h2
      · exact hmdU h2
  have hdec : decimalTail (nd.data ++ '.' :: md.data) = true := by
    unfold decimalTail
    rw [splitFirstCh_of_not_mem hndD]
    simp [hnd, hnda, hmd, hmda]
  have hdecU : decimalTail md.data = false := by
    unfold decimalTail
    rw [splitFirstCh_none hmdD]
  have h2 : String.mk (nd.data ++ '.' :: md.data) = nd ++ "." ++ md := by
    apply strExt
    simp [String.data_append]
  refine ⟨?_, ?_, ?_⟩
  · unfold subMatch subMatchL
    rw [hdataDot]
    simp only [dropLit_self, splitLastCh_of_not_mem f.data htailU, hf, hdec,
      ne_eq, not_false_iff, true_and, if_true]
    simp [strMkData, h2]
  · unfold subMatch subMatchL
    rw [hdataU]
    simp only [dropLit_self, splitLastCh_of_not_mem (f.data ++ '_' :: nd.data) hmdU,
      hdecU]
    simp
  · unfold sectionMatch sectionMatchL
    rw [hdataU]
    simp only [dropLit_section_on_sub]
    rfl

theorem sub_pattern_dot_only_witness :
    subMatch ("sub_section_title_1.2") = some (("title"), ("1.2")) ∧
      subMatch ("sub_section_title_1_2") = none ∧
      sectionMatch ("sub_section_title_1_2") = none :=
  sub_pattern_dot_only ("title") ("1") ("2") (by decide) (by decide)
    (by decide) (by decide) (by decide)

/-! ### Claim theorems for the flattener: key canonicalization and nulls -/

/-- C7 counterexample.  Canonicalization does not collapse runs of
underscores: the key with two interior spaces maps to a name with two
consecutive underscores, not one. -/
theorem underscore_runs_not_collapsed_cex :
    format_key ("a  b") = ("a__b") ∧ ("a__b") ≠ ("a_b") :=
  ⟨rfl, by decide⟩

theorem replace_chain_ne (x : Char) :
    (if (if x = ' ' then '_' else x) = '-' then '_'
      else if x = ' ' then '_' else x) ≠ ' ' ∧
      (if (if x = ' ' then '_' else x) = '-' then '_'
        else if x = ' ' then '_' else x) ≠ '-' := by
  by_cases h1 : x = ' ' <;> by_cases h2 : x = '-' <;> simp_all

/-- C7 amended.  Canonicalization lower-cases, trims surrounding whitespace
and replaces every space and hyphen with an underscore — so the result never
contains a space or hyphen — but runs of consecutive underscores are kept,
not collapsed to one. -/
theorem format_key_replaces_without_collapse :
    (∀ (s : String) (c : Char), c ∈ (format_key s).data → c ≠ ' ' ∧ c ≠ '-') ∧
      format_key ("  A-b c ") = ("a_b_c") ∧ format_key ("a  b") = ("a__b") := by
  refine ⟨?_, rfl, rfl⟩
  intro s c hc
  unfold format_key at hc
  simp only [List.mem_map] at hc
  obtain ⟨b, ⟨a, ⟨d, _, rfl⟩, rfl⟩, rfl⟩ := hc
  exact replace_chain_ne d.toLower

theorem format_key_replaces_without_collapse_witness :
    ('_' : Char) ∈ (format_key ("a b")).data ∧ ('_' ≠ ' ' ∧ '_' ≠ '-') :=
  ⟨by decide, format_key_replaces_without_collapse.1 ("a b") '_' (by decide)⟩

/-- C6 counterexample.  A null scalar renders as the Python string `None`,
not as the empty string: flattening the single object with a null value for
key `a` yields the cell text `None`. -/
theorem null_renders_as_string_none_cex :
    (flatten_batch (count_keys_across_all [Json.obj [(("a"), Json.null)]])
          [Json.obj [(("a"), Json.null)]]).rows =
        [[(("a"), ("None"))]] ∧
      ("None") ≠ ("") :=
  ⟨rfl, by decide⟩

/-- C6 amended.  Flattening is total on well-formed JSON (it never raises),
and a null scalar renders as the string `None` — Python `str(None)` — rather
than the empty string. -/
theorem flatten_null_renders_none (k : String) (tot tr : String → Nat)
    (h1 : format_key k ≠ ("section_title"))
    (h2 : format_key k ≠ ("sub_section_title"))
    (h4 : getTotal tot (format_key k) = 1) :
    (flatten_json tot tr (Json.obj [(k, Json.null)])).flat =
      [(format_key k, ("None"))] := by
  simp [flatten_json, recJson, recPairs, h1, h2, chooseCol, h4, dictSet,
    clean_value, pyRepr]

theorem flatten_null_renders_none_witness :
    (format_key ("a") ≠ ("section_title") ∧
        format_key ("a") ≠ ("sub_section_title") ∧
        getTotal (fun _ => 0) (format_key ("a")) = 1) ∧
      (flatten_json (fun _ => 0) (fun _ => 0)
          (Json.obj [(("a"), Json.null)])).flat =
        [(format_key ("a"), ("None"))] :=
  ⟨⟨by decide, by decide, by decide⟩,
    flatten_null_renders_none ("a") (fun _ => 0) (fun _ => 0) (by decide)
      (by decide) (by decide)⟩

/-! ### Claim theorems for the flattener: array escaping and the re-split -/

theorem containsEsc_cons_parts {c : Char} {rest : List Char}
    (h : containsEsc (c :: rest) = false) :
    ¬(c = '\\' ∧ rest.head? = some 'n') ∧ containsEsc rest = false := by
  by_cases hc : c = '\\' ∧ rest.head? = some 'n'
  · rw [containsEsc, if_pos hc] at h
    cases h
  · rw [containsEsc, if_neg hc] at h
    exact ⟨hc, h⟩

theorem splitEscL_no_delim {p : List Char} (hp : containsEsc p = false) :
    splitEscL p = [p] := by
  induction p with
  | nil => rw [splitEscL]
  | cons c rest ih =>
    obtain ⟨hc, hrest⟩ := containsEsc_cons_parts hp
    rw [splitEscL, if_neg hc, ih hrest]

theorem splitEscL_delim_cons {p : List Char} (rest : List Char)
    (hp : containsEsc p = false) :
    splitEscL (p ++ '\\' :: 'n' :: rest) = p :: splitEscL rest := by
  induction p with
  | nil =>
    rw [List.nil_append, splitEscL, if_pos (by simp)]
    rfl
  | cons c p' ih =>
    obtain ⟨hc, hp'⟩ := containsEsc_cons_parts hp
    have hcond : ¬(c = '\\' ∧ (p' ++ '\\' :: 'n' :: rest).head? = some 'n') := by
      rintro ⟨rfl, hhd⟩
      cases p' with
      | nil => simp at hhd
      | cons a as =>
        simp at hhd
        exact hc ⟨rfl, by simp [hhd]⟩
    rw [List.cons_append, splitEscL, if_neg hcond, ih hp']

theorem pyJoin_data (sep : String) (parts : List String) :
    (pyJoin sep parts).data = joinL sep.data (parts.map String.data) := by
  induction parts with
  | nil => rfl
  | cons x rest ih =>
    cases rest with
    | nil => rfl
    | cons y ys =>
      simp only [pyJoin, joinL, List.map_cons, String.data_append]
      simp only [List.map_cons] at ih
      rw [ih]

theorem splitEscL_joinL (parts : List (List Char)) (hne : parts ≠ [])
    (h : ∀ p ∈ parts, containsEsc p = false) :
    splitEscL (joinL ['\\', 'n'] parts) = parts := by
  induction parts with
  | nil => cases hne rfl
  | cons x rest ih =>
    cases rest with
    | nil =>
      exact splitEscL_no_delim (h x (List.mem_cons_self x []))
    | cons y ys =>
      have hx : containsEsc x = false := h x (List.mem_cons_self x (y :: ys))
      have hrest : ∀ p ∈ y :: ys, containsEsc p = false :=
        fun p hp => h p (List.mem_cons_of_mem x hp)
      have hjoin :
          joinL ['\\', 'n'] (x :: y :: ys) =
            x ++ '\\' :: 'n' :: joinL ['\\', 'n'] (y :: ys) := by
        simp [joinL]
      rw [hjoin, splitEscL_delim_cons _ hx, ih (by simp) hrest]

theorem map_mk_data (l : List String) :
    (l.map String.data).map String.mk = l := by
  induction l with
  | nil => rfl
  | cons x rest ih => simp [ih, strMkData]

theorem pySplitEsc_pyJoin (parts : List String) (hne : parts ≠ [])
    (h : ∀ p ∈ parts, containsEsc p.data = false) :
    pySplitEsc (pyJoin ("\\n") parts) = parts := by
  unfold pySplitEsc
  rw [pyJoin_data]
  have hsep : ("\\n" : String).data = ['\\', 'n'] := rfl
  rw [hsep, splitEscL_joinL (parts.map String.data)
    (by intro hx; exact hne (List.map_eq_nil_iff.mp hx))
    (by intro p hp
        obtain ⟨q, hq, rfl⟩ := List.mem_map.mp hp
        exact h q hq)]
  exact map_mk_data parts

theorem escNLL_id {l : List Char} (h : '\n' ∉ l) : escNLL l = l := by
  induction l with
  | nil => rfl
  | cons c rest ih =>
    have hc : c ≠ '\n' := fun he => h (he ▸ List.mem_cons_self c rest)
    have hr : '\n' ∉ rest := fun hm => h (List.mem_cons_of_mem c hm)
    simp [escNLL, hc, ih hr]
    simp [escNLL] at ih
    exact ih hr

theorem escNL_id {s : String} (h : '\n' ∉ s.data) : escNL s = s := by
  unfold escNL
  rw [escNLL_id h, strMkData]

/-- C9 counterexample.  An array element containing a real newline is
escaped into the delimiter itself, so the re-split does not recover the
original elements: `["p\nq"]` flattens to the cell `p\nq` (with a literal
backslash) and re-splitting yields `["p", "q"]`. -/
theorem newline_element_breaks_roundtrip_cex :
    (flatten_json
          (count_keys_across_all [Json.obj [(("b"), Json.arr [Json.str ("p\nq")])]])
          (fun _ => 0) (Json.obj [(("b"), Json.arr [Json.str ("p\nq")])])).flat =
        [(("b"), ("p\\nq"))] ∧
      pySplitEsc ("p\\nq") = [("p"), ("q")] ∧
      ([("p"), ("q")] : List String) ≠ [("p\nq")] := by
  refine ⟨rfl, ?_, by decide⟩
  show (splitEscL (("p\\nq").data)).map String.mk = [("p"), ("q")]
  have hd : (("p\\nq").data) = ['p'] ++ '\\' :: 'n' :: ['q'] := rfl
  rw [hd, splitEscL_delim_cons (p := ['p']) (['q']) (by decide),
    splitEscL_no_delim (p := ['q']) (by decide)]
  rfl

/-- C9 amended.  For a nonempty array of string elements none of which
contains a real newline or the literal backslash-n sequence, flatten
serializes the array by joining the (unchanged, since newline-free) elements
with the literal backslash-n delimiter, and splitting that cell on the same
delimiter recovers exactly the original elements.  An element containing a
real newline is escaped into the delimiter, so recovery fails for it. -/
theorem array_escape_roundtrip (k : String) (elems : List String)
    (tot tr : String → Nat)
    (h1 : format_key k ≠ ("section_title"))
    (h2 : format_key k ≠ ("sub_section_title"))
    (h4 : getTotal tot (format_key k) = 1)
    (hne : elems ≠ [])
    (hnl : ∀ e ∈ elems, '\n' ∉ e.data)
    (hnd : ∀ e ∈ elems, containsEsc e.data = false) :
    (flatten_json tot tr (Json.obj [(k, Json.arr (elems.map Json.str))])).flat =
        [(format_key k, pyJoin ("\\n") elems)] ∧
      pySplitEsc (pyJoin ("\\n") elems) = elems := by
  constructor
  · have hmap : (elems.map Json.str).map clean_value = elems := by
      rw [List.map_map]
      have : ∀ l : List String, (∀ e ∈ l, '\n' ∉ e.data) →
          l.map (fun e => clean_value (Json.str e)) = l := by
        intro l
        induction l with
        | nil => intro _; rfl
        | cons x rest ih =>
          intro hl
          have hx : '\n' ∉ x.data := hl x (List.mem_cons_self x rest)
          have hr := ih (fun e he => hl e (List.mem_cons_of_mem x he))
          simp only [List.map_cons, hr]
          simp [clean_value, escNL_id hx]
      exact this elems hnl
    simp [flatten_json, recJson, recPairs, h1, h2, chooseCol, h4, dictSet, hmap]
  · exact pySplitEsc_pyJoin elems hne hnd

/-! ### Claim theorems for the flattener: the disambiguating-suffix policy -/

theorem getTotal_pos (tot : String → Nat) (k : String) : 1 ≤ getTotal tot k := by
  unfold getTotal
  split <;> omega

theorem numK_append (k : String) (d₁ d₂ : List (String × String × String)) :
    numK k (d₁ ++ d₂) = numK k d₁ + numK k d₂ := by
  simp [numK, List.filter_append]

theorem traceFor_append (k : String) (d₁ d₂ : List (String × String × String)) :
    traceFor k (d₁ ++ d₂) = traceFor k d₁ ++ traceFor k d₂ := by
  simp [traceFor, List.filter_append]

theorem expectedCols_zero (tot : String → Nat) (k : String) (c : Nat) :
    expectedCols tot k c 0 = [] := by
  unfold expectedCols
  split <;> simp

theorem expectedCols_append (tot : String → Nat) (k : String) (c n₁ n₂ : Nat) :
    expectedCols tot k c n₁ ++ expectedCols tot k (c + n₁) n₂ =
      expectedCols tot k c (n₁ + n₂) := by
  unfold expectedCols
  split
  · rw [← List.replicate_add]
  · rw [← List.map_append]
    have h := List.range'_append (c + 1) n₁ n₂ 1
    simp only [one_mul] at h
    rw [show c + n₁ + 1 = c + 1 + n₁ by omega, h, Nat.add_comm n₂ n₁]

theorem TrSpec_refl (tot : String → Nat) (k : String) (t : String → Nat)
    (a : List (String × String × String)) : TrSpec tot k t a t a :=
  ⟨[], by simp, by simp [numK], by simp [traceFor, numK, expectedCols_zero]⟩

theorem TrSpec_comp {tot : String → Nat} {k : String} {t₁ t₂ t₃ : String → Nat}
    {a₁ a₂ a₃ : List (String × String × String)}
    (h12 : TrSpec tot k t₁ a₁ t₂ a₂) (h23 : TrSpec tot k t₂ a₂ t₃ a₃) :
    TrSpec tot k t₁ a₁ t₃ a₃ := by
  obtain ⟨d₁, he₁, ht₁, hc₁⟩ := h12
  obtain ⟨d₂, he₂, ht₂, hc₂⟩ := h23
  refine ⟨d₁ ++ d₂, by rw [he₂, he₁, List.append_assoc], ?_, ?_⟩
  · rw [ht₂, ht₁, numK_append]
    omega
  · rw [traceFor_append, numK_append, hc₁, hc₂, ht₁]
    exact expectedCols_append tot k (t₁ k) (numK k d₁) (numK k d₂)

theorem TrSpec_step (tot : String → Nat) (k fk col v : String)
    (t t' : String → Nat) (a : List (String × String × String))
    (hne : fk ≠ k) (htr : t' k = t k) :
    TrSpec tot k t a t' (a ++ [(fk, col, v)]) := by
  refine ⟨[(fk, col, v)], rfl, ?_, ?_⟩
  · simp [numK, List.filter, hne, htr]
  · simp [traceFor, numK, List.filter, hne, expectedCols_zero]

theorem TrSpec_step_self (tot : String → Nat) (k v : String)
    (t : String → Nat) (a : List (String × String × String)) :
    TrSpec tot k t a (bump t k)
      (a ++ [(k,
        (if getTotal tot k > 1 then k ++ ("_") ++ toString (bump t k k) else k),
        v)]) := by
  refine ⟨[(k, _, v)], rfl, ?_, ?_⟩
  · simp [numK, List.filter, bump]
  · unfold traceFor numK expectedCols
    by_cases h : getTotal tot k = 1
    · have hle : ¬ getTotal tot k > 1 := by omega
      simp [List.filter, h, hle]
    · have hgt : getTotal tot k > 1 := by
        have := getTotal_pos tot k
        omega
      simp [List.filter, h, hgt, bump, List.range'_one]

theorem chooseCol_not_sub {k : String} (tot : String → Nat)
    (si : Option String) (count : Nat) (h : pyStarts k ("sub_") = false) :
    chooseCol tot si k count =
      if getTotal tot k > 1 then k ++ ("_") ++ toString count else k := by
  simp [chooseCol, h]

/-- Unfolding of `recPairs` on a pair whose key canonicalizes to
`section_title`. -/
theorem recPairs_cons_sec (tot : String → Nat) (st : FState) (kk : String)
    (v : Json) (rest : List (String × Json))
    (h1 : format_key kk = ("section_title")) :
    recPairs tot st ((kk, v) :: rest) =
      recPairs tot
        { flat := dictSet st.flat
            (if getTotal tot (format_key kk) > 1 then
              format_key kk ++ ("_") ++
                toString (bump st.tracker (format_key kk) (format_key kk))
            else format_key kk) (clean_value v)
          tracker := bump st.tracker (format_key kk)
          curSec := st.curSec + 1
          subCtr := 0
          subId := none
          assigns := st.assigns ++ [(format_key kk,
            (if getTotal tot (format_key kk) > 1 then
              format_key kk ++ ("_") ++
                toString (bump st.tracker (format_key kk) (format_key kk))
            else format_key kk), clean_value v)] } rest := by
  cases v with
  | null => rw [recPairs, if_pos h1] <;> exact fun _ heq => Json.noConfusion heq
  | bool b => rw [recPairs, if_pos h1] <;> exact fun _ heq => Json.noConfusion heq
  | num n => rw [recPairs, if_pos h1] <;> exact fun _ heq => Json.noConfusion heq
  | str s2 => rw [recPairs, if_pos h1] <;> exact fun _ heq => Json.noConfusion heq
  | obj kvs => rw [recPairs, if_pos h1]
  | arr xs => rw [recPairs, if_pos h1]

/-- Unfolding of `recPairs` on a pair whose key canonicalizes to
`sub_section_title`. -/
theorem recPairs_cons_subsec (tot : String → Nat) (st : FState) (kk : String)
    (v : Json) (rest : List (String × Json))
    (h1 : ¬ format_key kk = ("section_title"))
    (h2 : format_key kk = ("sub_section_title")) :
    recPairs tot st ((kk, v) :: rest) =
      recPairs tot
        { flat := dictSet st.flat
            (format_key kk ++ ("_") ++
              (toString st.curSec ++ (".") ++ toString (st.subCtr + 1)))
            (clean_value v)
          tracker := st.tracker
          curSec := st.curSec
          subCtr := st.subCtr + 1
          subId := some (toString st.curSec ++ (".") ++ toString (st.subCtr + 1))
          assigns := st.assigns ++ [(format_key kk,
            format_key kk ++ ("_") ++
              (toString st.curSec ++ (".") ++ toString (st.subCtr + 1)),
            clean_value v)] } rest := by
  cases v with
  | null =>
    rw [recPairs, if_neg h1, if_pos h2] <;> exact fun _ heq => Json.noConfusion heq
  | bool b =>
    rw [recPairs, if_neg h1, if_pos h2] <;> exact fun _ heq => Json.noConfusion heq
  | num n =>
    rw [recPairs, if_neg h1, if_pos h2] <;> exact fun _ heq => Json.noConfusion heq
  | str s2 =>
    rw [recPairs, if_neg h1, if_pos h2] <;> exact fun _ heq => Json.noConfusion heq
  | obj kvs => rw [recPairs, if_neg h1, if_pos h2]
  | arr xs => rw [recPairs, if_neg h1, if_pos h2]

/-- Unfolding of `recPairs` on a pair with a dict value and a plain key. -/
theorem recPairs_cons_obj (tot : String → Nat) (st : FState) (kk : String)
    (kvs : List (String × Json)) (rest : List (String × Json))
    (h1 : ¬ format_key kk = ("section_title"))
    (h2 : ¬ format_key kk = ("sub_section_title")) :
    recPairs tot st ((kk, Json.obj kvs) :: rest) =
      recPairs tot (recJson tot st (Json.obj kvs)) rest := by
  rw [recPairs, if_neg h1, if_neg h2]

/-- Unfolding of `recPairs` on a pair with a list value and a plain key. -/
theorem recPairs_cons_arr (tot : String → Nat) (st : FState) (kk : String)
    (xs : List Json) (rest : List (String × Json))
    (h1 : ¬ format_key kk = ("section_title"))
    (h2 : ¬ format_key kk = ("sub_section_title")) :
    recPairs tot st ((kk, Json.arr xs) :: rest) =
      recPairs tot
        { flat := dictSet st.flat
            (chooseCol tot st.subId (format_key kk)
              (bump st.tracker (format_key kk) (format_key kk)))
            (pyJoin ("\\n") (xs.map clean_value))
          tracker := bump st.tracker (format_key kk)
          curSec := st.curSec
          subCtr := st.subCtr
          subId := st.subId
          assigns := st.assigns ++ [(format_key kk,
            chooseCol tot st.subId (format_key kk)
              (bump st.tracker (format_key kk) (format_key kk)),
            pyJoin ("\\n") (xs.map clean_value))] } rest := by
  rw [recPairs, if_neg h1, if_neg h2]

/-- Unfolding of `recPairs` on a pair with a scalar value and a plain key. -/
theorem recPairs_cons_scalar (tot : String → Nat) (st : FState) (kk : String)
    (v : Json) (rest : List (String × Json))
    (h1 : ¬ format_key kk = ("section_title"))
    (h2 : ¬ format_key kk = ("sub_section_title"))
    (hobj : ∀ kvs, v ≠ Json.obj kvs) (harr : ∀ xs, v ≠ Json.arr xs) :
    recPairs tot st ((kk, v) :: rest) =
      recPairs tot
        { flat := dictSet st.flat
            (chooseCol tot st.subId (format_key kk)
              (bump st.tracker (format_key kk) (format_key kk)))
            (clean_value v)
          tracker := bump st.tracker (format_key kk)
          curSec := st.curSec
          subCtr := st.subCtr
          subId := st.subId
          assigns := st.assigns ++ [(format_key kk,
            chooseCol tot st.subId (format_key kk)
              (bump st.tracker (format_key kk) (format_key kk)),
            clean_value v)] } rest := by
  cases v with
  | obj kvs => exact absurd rfl (hobj kvs)
  | arr xs => exact absurd rfl (harr xs)
  | null =>
    rw [recPairs, if_neg h1, if_neg h2] <;> exact fun _ heq => Json.noConfusion heq
  | bool b =>
    rw [recPairs, if_neg h1, if_neg h2] <;> exact fun _ heq => Json.noConfusion heq
  | num n =>
    rw [recPairs, if_neg h1, if_neg h2] <;> exact fun _ heq => Json.noConfusion heq
  | str s2 =>
    rw [recPairs, if_neg h1, if_neg h2] <;> exact fun _ heq => Json.noConfusion heq

mutual

theorem recJson_spec (tot : String → Nat) (k : String)
    (hk1 : k ≠ ("sub_section_title")) (hk2 : pyStarts k ("sub_") = false)
    (st : FState) : (j : Json) →
    TrSpec tot k st.tracker st.assigns (recJson tot st j).tracker
      (recJson tot st j).assigns
  | .null => TrSpec_refl tot k st.tracker st.assigns
  | .bool _ => TrSpec_refl tot k st.tracker st.assigns
  | .num _ => TrSpec_refl tot k st.tracker st.assigns
  | .str _ => TrSpec_refl tot k st.tracker st.assigns
  | .obj kvs => recPairs_spec tot k hk1 hk2 st kvs
  | .arr xs => recItems_spec tot k hk1 hk2 st xs
termination_by j => sizeOf j

theorem recPairs_spec (tot : String → Nat) (k : String)
    (hk1 : k ≠ ("sub_section_title")) (hk2 : pyStarts k ("sub_") = false)
    (st : FState) : (l : List (String × Json)) →
    TrSpec tot k st.tracker st.assigns (recPairs tot st l).tracker
      (recPairs tot st l).assigns
  | [] => TrSpec_refl tot k st.tracker st.assigns
  | (kk, v) :: rest => by
    show TrSpec tot k st.tracker st.assigns
      (recPairs tot st ((kk, v) :: rest)).tracker
      (recPairs tot st ((kk, v) :: rest)).assigns
    by_cases h1 : format_key kk = ("section_title")
    · rw [recPairs_cons_sec tot st kk v rest h1]
      refine TrSpec_comp ?_ (recPairs_spec tot k hk1 hk2 _ rest)
      by_cases hfk : format_key kk = k
      · rw [hfk]
        exact TrSpec_step_self tot k (clean_value v) st.tracker st.assigns
      · exact TrSpec_step tot k (format_key kk) _ (clean_value v) st.tracker
          (bump st.tracker (format_key kk)) st.assigns hfk
          (by simp [bump, Ne.symm hfk])
    · by_cases h2 : format_key kk = ("sub_section_title")
      · rw [recPairs_cons_subsec tot st kk v rest h1 h2]
        refine TrSpec_comp ?_ (recPairs_spec tot k hk1 hk2 _ rest)
        refine TrSpec_step tot k (format_key kk) _ (clean_value v)
          st.tracker st.tracker st.assigns ?_ rfl
        intro he
        exact hk1 ((he.symm.trans h2))
      · match v with
        | .obj kvs =>
          rw [recPairs_cons_obj tot st kk kvs rest h1 h2]
          exact TrSpec_comp (recJson_spec tot k hk1 hk2 st (.obj kvs))
            (recPairs_spec tot k hk1 hk2 _ rest)
        | .arr xs =>
          rw [recPairs_cons_arr tot st kk xs rest h1 h2]
          refine TrSpec_comp ?_ (recPairs_spec tot k hk1 hk2 _ rest)
          by_cases hfk : format_key kk = k
          · rw [hfk, chooseCol_not_sub tot st.subId _ hk2]
            exact TrSpec_step_self tot k _ st.tracker st.assigns
          · exact TrSpec_step tot k (format_key kk) _ _ st.tracker
              (bump st.tracker (format_key kk)) st.assigns hfk
              (by simp [bump, Ne.symm hfk])
        | .null =>
          rw [recPairs_cons_scalar tot st kk Json.null rest h1 h2
            (fun _ heq => Json.noConfusion heq) (fun _ heq => Json.noConfusion heq)]
          refine TrSpec_comp ?_ (recPairs_spec tot k hk1 hk2 _ rest)
          by_cases hfk : format_key kk = k
          · rw [hfk, chooseCol_not_sub tot st.subId _ hk2]
            exact TrSpec_step_self tot k _ st.tracker st.assigns
          · exact TrSpec_step tot k (format_key kk) _ _ st.tracker
              (bump st.tracker (format_key kk)) st.assigns hfk
              (by simp [bump, Ne.symm hfk])
        | .bool b =>
          rw [recPairs_cons_scalar tot st kk (Json.bool b) rest h1 h2
            (fun _ heq => Json.noConfusion heq) (fun _ heq => Json.noConfusion heq)]
          refine TrSpec_comp ?_ (recPairs_spec tot k hk1 hk2 _ rest)
          by_cases hfk : format_key kk = k
          · rw [hfk, chooseCol_not_sub tot st.subId _ hk2]
            exact TrSpec_step_self tot k _ st.tracker st.assigns
          · exact TrSpec_step tot k (format_key kk) _ _ st.tracker
              (bump st.tracker (format_key kk)) st.assigns hfk
              (by simp [bump, Ne.symm hfk])
        | .num n =>
          rw [recPairs_cons_scalar tot st kk (Json.num n) rest h1 h2
            (fun _ heq => Json.noConfusion heq) (fun _ heq => Json.noConfusion heq)]
          refine TrSpec_comp ?_ (recPairs_spec tot k hk1 hk2 _ rest)
          by_cases hfk : format_key kk = k
          · rw [hfk, chooseCol_not_sub tot st.subId _ hk2]
            exact TrSpec_step_self tot k _ st.tracker st.assigns
          · exact TrSpec_step tot k (format_key kk) _ _ st.tracker
              (bump st.tracker (format_key kk)) st.assigns hfk
              (by simp [bump, Ne.symm hfk])
        | .str ss =>
          rw [recPairs_cons_scalar tot st kk (Json.str ss) rest h1 h2
            (fun _ heq => Json.noConfusion heq) (fun _ heq => Json.noConfusion heq)]
          refine TrSpec_comp ?_ (recPairs_spec tot k hk1 hk2 _ rest)
          by_cases hfk : format_key kk = k
          · rw [hfk, chooseCol_not_sub tot st.subId _ hk2]
            exact TrSpec_step_self tot k _ st.tracker st.assigns
          · exact TrSpec_step tot k (format_key kk) _ _ st.tracker
              (bump st.tracker (format_key kk)) st.assigns hfk
              (by simp [bump, Ne.symm hfk])
termination_by l => sizeOf l

theorem recItems_spec (tot : String → Nat) (k : String)
    (hk1 : k ≠ ("sub_section_title")) (hk2 : pyStarts k ("sub_") = false)
    (st : FState) : (l : List Json) →
    TrSpec tot k st.tracker st.assigns (recItems tot st l).tracker
      (recItems tot st l).assigns
  | [] => TrSpec_refl tot k st.tracker st.assigns
  | j :: rest =>
    TrSpec_comp (recJson_spec tot k hk1 hk2 st j)
      (recItems_spec tot k hk1 hk2 (recJson tot st j) rest)
termination_by l => sizeOf l

end

theorem flatten_batch_trspec (tot : String → Nat) (k : String)
    (hk1 : k ≠ ("sub_section_title")) (hk2 : pyStarts k ("sub_") = false)
    (objs : List Json) :
    TrSpec tot k (fun _ => 0) [] (flatten_batch tot objs).tracker
      (flatten_batch tot objs).assigns := by
  unfold flatten_batch
  have aux : ∀ (l : List Json) (acc : BatchResult),
      TrSpec tot k acc.tracker acc.assigns
        (l.foldl
          (fun acc obj =>
            let st := flatten_json tot acc.tracker obj
            { rows := acc.rows ++ [st.flat]
              tracker := st.tracker
              assigns := acc.assigns ++ st.assigns }) acc).tracker
        (l.foldl
          (fun acc obj =>
            let st := flatten_json tot acc.tracker obj
            { rows := acc.rows ++ [st.flat]
              tracker := st.tracker
              assigns := acc.assigns ++ st.assigns }) acc).assigns := by
    intro l
    induction l with
    | nil => intro acc; exact TrSpec_refl tot k acc.tracker acc.assigns
    | cons obj rest ih =>
      intro acc
      simp only [List.foldl_cons]
      refine TrSpec_comp ?_ (ih _)
      have h := recJson_spec tot k hk1 hk2
        { flat := []
          tracker := acc.tracker
          curSec := 0
          subCtr := 0
          subId := none
          assigns := [] } obj
      obtain ⟨d, he, ht, hc⟩ := h
      exact ⟨d, by simpa [flatten_json] using he, by simpa [flatten_json] using ht,
        by simpa [flatten_json] using hc⟩
  exact aux objs { rows := [], tracker := fun _ => 0, assigns := [] }

/-- C3 counterexample.  The key `sub_section_title` has batch-wide total 1,
yet its single occurrence is emitted with the hierarchical suffix `_0.1`
(section counter still 0), not as the bare unsuffixed key. -/
theorem sub_section_title_suffixed_cex :
    getTotal
        (count_keys_across_all [Json.obj [(("Sub Section Title"), Json.str ("S"))]])
        ("sub_section_title") = 1 ∧
      (flatten_batch
          (count_keys_across_all [Json.obj [(("Sub Section Title"), Json.str ("S"))]])
          [Json.obj [(("Sub Section Title"), Json.str ("S"))]]).rows =
        [[(("sub_section_title_0.1"), ("S"))]] ∧
      (("sub_section_title_0.1") : String) ≠ ("sub_section_title") :=
  ⟨rfl, rfl, by decide⟩

/-- C3 amended.  For every batch and every canonical key `k` other than the
hierarchy markers — `k` not `sub_section_title` and not starting with `sub_`
— the suffix policy holds for the occurrences flatten processes: when the
batch-wide total of `k` is exactly 1, every processed occurrence is written
to the bare column `k` with no numeric suffix; when the total exceeds 1, the
i-th processed occurrence (1-based, shared across the whole batch) is
written to the distinct column `k_i`.  (`sub_section_title` and `sub_`-keys
under an active sub-section instead receive hierarchical `N.M` suffixes, and
key occurrences inside array-valued entries are serialized into their
parent's cell without becoming columns.) -/
theorem flatten_suffix_policy (objs : List Json) (k : String)
    (hk1 : k ≠ ("sub_section_title")) (hk2 : pyStarts k ("sub_") = false) :
    traceFor k (flatten_batch (count_keys_across_all objs) objs).assigns =
      (if getTotal (count_keys_across_all objs) k = 1 then
        List.replicate
          (numK k (flatten_batch (count_keys_across_all objs) objs).assigns) k
      else
        (List.range' 1
            (numK k (flatten_batch (count_keys_across_all objs) objs).assigns)).map
          (fun i => k ++ ("_") ++ toString i)) := by
  obtain ⟨d, he, ht, hc⟩ :=
    flatten_batch_trspec (count_keys_across_all objs) k hk1 hk2 objs
  rw [he]
  simpa [expectedCols] using hc

theorem flatten_suffix_policy_witness :
    ((("name") : String) ≠ ("sub_section_title") ∧
        pyStarts ("name") ("sub_") = false) ∧
      traceFor ("name")
          (flatten_batch
            (count_keys_across_all
              [Json.obj [(("name"), Json.str ("u"))],
               Json.obj [(("name"), Json.str ("v"))]])
            [Json.obj [(("name"), Json.str ("u"))],
             Json.obj [(("name"), Json.str ("v"))]]).assigns =
        (if getTotal
              (count_keys_across_all
                [Json.obj [(("name"), Json.str ("u"))],
                 Json.obj [(("name"), Json.str ("v"))]]) ("name") = 1 then
          List.replicate
            (numK ("name")
              (flatten_batch
                (count_keys_across_all
                  [Json.obj [(("name"), Json.str ("u"))],
                   Json.obj [(("name"), Json.str ("v"))]])
                [Json.obj [(("name"), Json.str ("u"))],
                 Json.obj [(("name"), Json.str ("v"))]]).assigns) ("name")
        else
          (List.range' 1
              (numK ("name")
                (flatten_batch
                  (count_keys_across_all
                    [Json.obj [(("name"), Json.str ("u"))],
                     Json.obj [(("name"), Json.str ("v"))]])
                  [Json.obj [(("name"), Json.str ("u"))],
                   Json.obj [(("name"), Json.str ("v"))]]).assigns)).map
            (fun i => ("name") ++ ("_") ++ toString i)) :=
  ⟨⟨by decide, by decide⟩,
    flatten_suffix_policy
      [Json.obj [(("name"), Json.str ("u"))],
       Json.obj [(("name"), Json.str ("v"))]] ("name") (by decide) (by decide)⟩

theorem array_escape_roundtrip_witness :
    (format_key ("b") ≠ ("section_title") ∧
        format_key ("b") ≠ ("sub_section_title") ∧
        getTotal (fun _ => 0) (format_key ("b")) = 1 ∧
        ([("p"), ("q")] : List String) ≠ []) ∧
      ((flatten_json (fun _ => 0) (fun _ => 0)
            (Json.obj [(("b"), Json.arr ([("p"), ("q")].map Json.str))])).flat =
          [(format_key ("b"), pyJoin ("\\n") [("p"), ("q")])] ∧
        pySplitEsc (pyJoin ("\\n") [("p"), ("q")]) = [("p"), ("q")]) :=
  ⟨⟨by decide, by decide, by decide, by decide⟩,
    array_escape_roundtrip ("b") [("p"), ("q")] (fun _ => 0) (fun _ => 0)
      (by decide) (by decide) (by decide) (by decide) (by decide) (by decide)⟩

/-! ### Claim theorems for the block extractor -/

/-- C8 counterexample.  This text contains one well-formed brace-balanced
block (the second line) and one malformed open-unbalanced block (the first
line), yet extraction returns zero objects, not one: the unbalanced opening
block never reaches balance zero, so it swallows the well-formed block into
one unparseable candidate, which is skipped with one warning. -/
theorem malformed_block_swallows_cex :
    split_multiple_jsons ("\x7b\"b\": 2\n\x7b\"a\": 1\x7d") = ([], 1) ∧
      json_loads ("\x7b\"a\": 1\x7d") = some (Json.obj [(("a"), Json.num 1)]) ∧
      json_loads ("\x7b\"b\": 2") = none :=
  ⟨rfl, rfl, rfl⟩

/-- C8 amended.  When the well-formed block precedes the malformed
(unbalanced) one, extraction recovers locally as claimed: it returns exactly
the one well-formed JsonObject, records one skipped-block warning for the
malformed block, and does not abort the run.  (When the open-unbalanced
block comes first it absorbs all following lines, so the well-formed block
is lost with it.) -/
theorem good_block_then_malformed_extracted :
    split_multiple_jsons ("\x7b\"a\": 1\x7d\n\x7b\"b\": 2") =
      ([Json.obj [(("a"), Json.num 1)]], 1) := rfl

end JsonToCsv
